import Mathlib

/-!
Verification of the iLayer SDK core against its specification.

The TypeScript sources are embedded shallowly:
  - pure functions become Lean functions;
  - methods of the stateful `QuoteTracker` class become functions from the
    quote map (a key-value list mirroring a JS `Map`) to a result paired with
    the new map;
  - code that can throw returns `Except Unit _`;
  - JS `bigint` values are `Int`, JS `number` amounts are `Rat` (arithmetic on
    them is modelled exactly), millisecond timestamps are `Int`.
-/

namespace ILayer

/-! ### Data model (src/src/types.ts) -/

/-- `Type` enum from src/src/types.ts (named `TokenType` here because `Type`
is a Lean keyword): NULL = 0, NATIVE = 1, FUNGIBLE_TOKEN = 2,
NON_FUNGIBLE_TOKEN = 3, SEMI_FUNGIBLE_TOKEN = 4. -/
inductive TokenType where
  | NULL
  | NATIVE
  | FUNGIBLE_TOKEN
  | NON_FUNGIBLE_TOKEN
  | SEMI_FUNGIBLE_TOKEN
deriving DecidableEq, Repr

/-- Numeric code of a `TokenType`, as declared in the TS enum. -/
def TokenType.toCode : TokenType → Nat
  | .NULL => 0
  | .NATIVE => 1
  | .FUNGIBLE_TOKEN => 2
  | .NON_FUNGIBLE_TOKEN => 3
  | .SEMI_FUNGIBLE_TOKEN => 4

/-- `Token` from src/src/types.ts. `tokenAddress` is a hex string
(bytes32-padded by convention); `tokenId` and `amount` are JS bigints. -/
structure Token where
  tokenType : TokenType
  tokenAddress : String
  tokenId : Int
  amount : Int
deriving DecidableEq, Repr

/-- `Order` from src/src/types.ts. Address fields are hex strings; chain ids
are JS numbers holding uint32 values; deadlines are JS bigints. -/
structure Order where
  user : String
  recipient : String
  filler : String
  inputs : List Token
  outputs : List Token
  sourceChainId : Int
  destinationChainId : Int
  sponsored : Bool
  primaryFillerDeadline : Int
  deadline : Int
  callRecipient : String
  callData : String
  callValue : Int
deriving DecidableEq, Repr

/-- `OrderRequest` from src/src/types.ts. -/
structure OrderRequest where
  deadline : Int
  nonce : Int
  order : Order
deriving DecidableEq, Repr

/-! ### QuoteTracker data (quote-tracker module) -/

/-- Status literal union of `StoredQuote.status`. -/
inductive QuoteStatus where
  | pending
  | accepted
  | filled
  | expired
  | rejected
deriving DecidableEq, Repr

/-- One element of `StoredQuote.destTokens`: `{ token: string; amount: number }`.
The JS `number` amount is modelled as an exact rational. -/
structure DestToken where
  token : String
  amount : Rat
deriving DecidableEq, Repr

/-- `StoredQuote` from the quote-tracker module. `inputAmount` is a decimal
string in the source, held here as the integer it denotes (the source always
reads it through `BigInt(...)`). The opaque optional `rawQuote` payload is
omitted: no code under verification reads it. -/
structure StoredQuote where
  quoteId : String
  bucket : String
  solver : String
  sourceChain : String
  destChain : String
  sourceToken : String
  destTokens : List DestToken
  inputAmount : Int
  conversionRate : Rat
  gasFeeUsd : Rat
  timestamp : Int
  expiresAt : Int
  status : QuoteStatus
deriving DecidableEq, Repr

/-- The tracker's `Map<string, StoredQuote>`, as a key-value list in insertion
order (a JS `Map` iterates in insertion order; `set` on an existing key updates
the entry in place). -/
abbrev QuoteMap := List (String × StoredQuote)

/-- `Map.get`: first entry with the given key, if any. -/
def mapGet (m : QuoteMap) (k : String) : Option StoredQuote :=
  (m.find? (fun p => p.1 == k)).map (·.2)

/-- `Map.set`: update the entry with the given key in place if present, else
append a new entry (a JS `Map` keeps the key's original insertion position on
overwrite and appends fresh keys). -/
def mapSet (m : QuoteMap) (k : String) (v : StoredQuote) : QuoteMap :=
  match m with
  | [] => [(k, v)]
  | (k1, v1) :: rest => if k1 == k then (k, v) :: rest else (k1, v1) :: mapSet rest k v

/-! ### QuoteTracker.cleanupExpiredQuotes -/

/-- `QuoteTracker.cleanupExpiredQuotes`: iterate over the entries, delete each
quote with `now > quote.expiresAt`, count the deletions. Returns the removal
count and the map after the sweep. -/
def cleanupExpiredQuotes (m : QuoteMap) (now : Int) : Nat × QuoteMap :=
  match m with
  | [] => (0, [])
  | (k, q) :: rest =>
    let r := cleanupExpiredQuotes rest now
    if now > q.expiresAt then (r.1 + 1, r.2) else (r.1, (k, q) :: r.2)

/-- Claim C4: for every store state and current time `now`,
`cleanupExpiredQuotes` removes exactly the entries with `now > expiresAt`,
regardless of their status, leaves every other entry unchanged, and returns
the number of entries removed. -/
theorem cleanupExpiredQuotes_removes_exactly_expired (m : QuoteMap) (now : Int) :
    (cleanupExpiredQuotes m now).2 = m.filter (fun p => decide (¬ now > p.2.expiresAt))
      ∧ (cleanupExpiredQuotes m now).1 = m.countP (fun p => decide (now > p.2.expiresAt)) := by
  induction m with
  | nil => simp [cleanupExpiredQuotes]
  | cons hd tl ih =>
    obtain ⟨k, q⟩ := hd
    rcases lt_or_le q.expiresAt now with h | h <;>
      first
        | simp [cleanupExpiredQuotes, List.countP_cons, List.filter_cons, h, h.not_le, ih.1, ih.2]
        | simp [cleanupExpiredQuotes, List.countP_cons, List.filter_cons, h, h.not_lt, ih.1, ih.2]

/-! ### QuoteTracker.getStats -/

/-- The record returned by `QuoteTracker.getStats`. -/
structure QuoteStats where
  total : Nat
  pending : Nat
  accepted : Nat
  filled : Nat
  expired : Nat
  rejected : Nat
deriving DecidableEq, Repr

/-- Body of the `getStats` loop for one quote: a quote past `expiresAt` whose
status is still `pending` is counted under `expired`; otherwise the stored
status is counted. -/
def statsStep (now : Int) (s : QuoteStats) (q : StoredQuote) : QuoteStats :=
  if now > q.expiresAt ∧ q.status = QuoteStatus.pending then
    { s with expired := s.expired + 1 }
  else
    match q.status with
    | .pending => { s with pending := s.pending + 1 }
    | .accepted => { s with accepted := s.accepted + 1 }
    | .filled => { s with filled := s.filled + 1 }
    | .expired => { s with expired := s.expired + 1 }
    | .rejected => { s with rejected := s.rejected + 1 }

/-- The `for (const quote of this.quotes.values())` loop of `getStats`. -/
def statsLoop (now : Int) : QuoteMap → QuoteStats → QuoteStats
  | [], s => s
  | (_, q) :: rest, s => statsLoop now rest (statsStep now s q)

/-- `QuoteTracker.getStats`: seeds `total` with the map size and all counters
with zero, then runs the counting loop. The method only reads the store, so
its embedding returns the store unchanged as the second component. -/
def getStats (m : QuoteMap) (now : Int) : QuoteStats × QuoteMap :=
  (statsLoop now m
    { total := m.length, pending := 0, accepted := 0, filled := 0,
      expired := 0, rejected := 0 }, m)

/-- Accumulator characterisation of the `getStats` loop. -/
theorem statsLoop_eq (now : Int) (l : QuoteMap) (s : QuoteStats) :
    statsLoop now l s =
      { total := s.total
        pending := s.pending +
          l.countP (fun p => decide (p.2.status = QuoteStatus.pending ∧ ¬ now > p.2.expiresAt))
        accepted := s.accepted +
          l.countP (fun p => decide (p.2.status = QuoteStatus.accepted))
        filled := s.filled +
          l.countP (fun p => decide (p.2.status = QuoteStatus.filled))
        expired := s.expired +
          l.countP (fun p => decide (p.2.status = QuoteStatus.expired ∨
            (p.2.status = QuoteStatus.pending ∧ now > p.2.expiresAt)))
        rejected := s.rejected +
          l.countP (fun p => decide (p.2.status = QuoteStatus.rejected)) } := by
  induction l generalizing s with
  | nil => simp [statsLoop]
  | cons hd tl ih =>
    obtain ⟨k, q⟩ := hd
    rw [statsLoop, ih]
    rcases hq : q.status <;> rcases lt_or_le q.expiresAt now with hexp | hexp <;>
      first
        | (simp [statsStep, hq, hexp, hexp.not_le, List.countP_cons]; omega)
        | (simp [statsStep, hq, hexp, hexp.not_lt, List.countP_cons]; omega)

/-- Claim C3: for every store state and current time, `getStats` returns
counts by status whose `total` equals the number of stored quotes; a quote
whose stored status is `pending` but whose `expiresAt` is in the past is
counted under `expired` instead of `pending` for this snapshot only; and the
call leaves the store exactly as it was (it mutates no stored quote). -/
theorem getStats_counts_by_status (m : QuoteMap) (now : Int) :
    (getStats m now).1.total = m.length
      ∧ (getStats m now).1.pending =
          m.countP (fun p => decide (p.2.status = QuoteStatus.pending ∧ ¬ now > p.2.expiresAt))
      ∧ (getStats m now).1.accepted =
          m.countP (fun p => decide (p.2.status = QuoteStatus.accepted))
      ∧ (getStats m now).1.filled =
          m.countP (fun p => decide (p.2.status = QuoteStatus.filled))
      ∧ (getStats m now).1.expired =
          m.countP (fun p => decide (p.2.status = QuoteStatus.expired ∨
            (p.2.status = QuoteStatus.pending ∧ now > p.2.expiresAt)))
      ∧ (getStats m now).1.rejected =
          m.countP (fun p => decide (p.2.status = QuoteStatus.rejected))
      ∧ (getStats m now).2 = m := by
  unfold getStats
  rw [statsLoop_eq]
  simp

/-! ### QuoteTracker status transitions -/

/-- `QuoteTracker.acceptQuote`: look up the quote; if absent return `false`
with the store untouched, else set its status to `accepted`, write it back
under the same key, and return `true`. -/
def acceptQuote (m : QuoteMap) (quoteId : String) : Bool × QuoteMap :=
  match mapGet m quoteId with
  | none => (false, m)
  | some q => (true, mapSet m quoteId { q with status := QuoteStatus.accepted })

/-- `QuoteTracker.fillQuote`: as `acceptQuote`, but sets status `filled`. -/
def fillQuote (m : QuoteMap) (quoteId : String) : Bool × QuoteMap :=
  match mapGet m quoteId with
  | none => (false, m)
  | some q => (true, mapSet m quoteId { q with status := QuoteStatus.filled })

/-- `QuoteTracker.rejectQuote`: as `acceptQuote`, but sets status `rejected`. -/
def rejectQuote (m : QuoteMap) (quoteId : String) : Bool × QuoteMap :=
  match mapGet m quoteId with
  | none => (false, m)
  | some q => (true, mapSet m quoteId { q with status := QuoteStatus.rejected })

/-- Dispatcher for the claim's quantification over the three transition
methods: `accepted ↦ acceptQuote`, `filled ↦ fillQuote`,
`rejected ↦ rejectQuote` (no source method targets the other two statuses,
so they fall through to a no-op result). -/
def applyTransition (newStatus : QuoteStatus) (m : QuoteMap) (quoteId : String) :
    Bool × QuoteMap :=
  match newStatus with
  | .accepted => acceptQuote m quoteId
  | .filled => fillQuote m quoteId
  | .rejected => rejectQuote m quoteId
  | _ => (false, m)

theorem mapGet_mapSet_self (m : QuoteMap) (k : String) (v : StoredQuote) :
    mapGet (mapSet m k v) k = some v := by
  induction m with
  | nil => simp [mapSet, mapGet, List.find?_cons_of_pos]
  | cons hd tl ih =>
    obtain ⟨k1, v1⟩ := hd
    by_cases hh : k1 == k
    · simp [mapSet, hh, mapGet, List.find?_cons_of_pos]
    · simpa [mapSet, hh, mapGet, List.find?_cons_of_neg] using ih

theorem mapGet_mapSet_other (m : QuoteMap) (k k' : String) (v : StoredQuote)
    (hne : k' ≠ k) :
    mapGet (mapSet m k v) k' = mapGet m k' := by
  have hkk' : ¬ (k == k') = true := by simpa using fun h => hne h.symm
  induction m with
  | nil => simp [mapSet, mapGet, List.find?_cons_of_neg, hkk']
  | cons hd tl ih =>
    obtain ⟨k1, v1⟩ := hd
    by_cases hh : k1 == k
    · have hk1 : k1 = k := by simpa using hh
      have h2 : ¬ (k1 == k') = true := by simpa [hk1] using fun h => hne h.symm
      simp [mapSet, hh, mapGet, List.find?_cons_of_neg, hkk', h2]
    · by_cases hk' : k1 == k'
      · simp [mapSet, hh, mapGet, List.find?_cons_of_pos, hk']
      · simpa [mapSet, hh, mapGet, List.find?_cons_of_neg, hk'] using ih

/-- Claim C7: for every `quoteId` and every `newStatus` in
`accepted / filled / rejected`, the transition method returns `false` and
leaves the store completely unchanged when `quoteId` is not in the store, and
returns `true` and sets that quote's status to `newStatus` — changing nothing
else in the store — when it is. No legality check against the current status
is performed: the present-quote case holds for an arbitrary current status
`q.status` (for example a `filled` quote may be transitioned back to
`accepted`). -/
theorem transition_spec (newStatus : QuoteStatus) (m : QuoteMap) (quoteId : String)
    (hs : newStatus = QuoteStatus.accepted ∨ newStatus = QuoteStatus.filled ∨
      newStatus = QuoteStatus.rejected) :
    (mapGet m quoteId = none → applyTransition newStatus m quoteId = (false, m))
      ∧ (∀ q, mapGet m quoteId = some q →
          (applyTransition newStatus m quoteId).1 = true
            ∧ mapGet (applyTransition newStatus m quoteId).2 quoteId =
                some { q with status := newStatus }
            ∧ ∀ k, k ≠ quoteId →
                mapGet (applyTransition newStatus m quoteId).2 k = mapGet m k) := by
  rcases hs with rfl | rfl | rfl <;>
    constructor <;>
      simp only [applyTransition, acceptQuote, fillQuote, rejectQuote]
  all_goals
    first
      | (intro h; simp [h])
      | (intro q h
         rw [h]
         exact ⟨rfl, mapGet_mapSet_self m quoteId _,
           fun k hk => mapGet_mapSet_other m quoteId k _ hk⟩)

/-- A concrete stored quote (already `filled`) used to witness claim C7. -/
def qC7 : StoredQuote :=
  { quoteId := "q1", bucket := "b1", solver := "0xsolver", sourceChain := "ethereum",
    destChain := "arbitrum", sourceToken := "0xsrc",
    destTokens := [{ token := "0xdst", amount := 990000 }],
    inputAmount := 1000000, conversionRate := 99/100, gasFeeUsd := 5/2,
    timestamp := 0, expiresAt := 600000, status := QuoteStatus.filled }

/-- Witness for claim C7 at a concrete store: transitioning a stored `filled`
quote back to `accepted` succeeds, illustrating the permissive state machine. -/
theorem transition_spec_witness :
    (mapGet [("q1", qC7)] "q1" = none →
        applyTransition QuoteStatus.accepted [("q1", qC7)] "q1" = (false, [("q1", qC7)]))
      ∧ (∀ q, mapGet [("q1", qC7)] "q1" = some q →
          (applyTransition QuoteStatus.accepted [("q1", qC7)] "q1").1 = true
            ∧ mapGet (applyTransition QuoteStatus.accepted [("q1", qC7)] "q1").2 "q1" =
                some { q with status := QuoteStatus.accepted }
            ∧ ∀ k, k ≠ "q1" →
                mapGet (applyTransition QuoteStatus.accepted [("q1", qC7)] "q1").2 k =
                  mapGet [("q1", qC7)] k) :=
  transition_spec QuoteStatus.accepted [("q1", qC7)] "q1" (Or.inl rfl)

/-! ### QuoteTracker.findQuotes -/

/-- The `criteria` argument of `findQuotes` (all fields optional). -/
structure FindCriteria where
  bucket : Option String := none
  solver : Option String := none
  sourceChain : Option String := none
  destChain : Option String := none
  status : Option QuoteStatus := none
deriving DecidableEq, Repr

/-- JS truthiness of an optional string criterion: `undefined` and the empty
string are falsy, every other string is truthy. -/
def strTruthy : Option String → Bool
  | none => false
  | some s => decide (s ≠ "")

/-- One pass of the `findQuotes` loop body: `matches` starts `true` and each
supplied (truthy) criterion that disagrees flips it to `false`. The solver
comparison is case-insensitive (`toLowerCase` on both sides); all others are
exact. The `status` criterion is one of five non-empty literals, hence truthy
exactly when supplied. -/
def quoteMatches (c : FindCriteria) (q : StoredQuote) : Bool :=
  !(strTruthy c.bucket && decide (q.bucket ≠ c.bucket.getD "")) &&
  !(strTruthy c.solver && decide (q.solver.toLower ≠ (c.solver.getD "").toLower)) &&
  !(strTruthy c.sourceChain && decide (q.sourceChain ≠ c.sourceChain.getD "")) &&
  !(strTruthy c.destChain && decide (q.destChain ≠ c.destChain.getD "")) &&
  !(c.status.isSome && decide (some q.status ≠ c.status))

/-- `QuoteTracker.findQuotes`: collect, in iteration order, every stored quote
matching the criteria. -/
def findQuotes (m : QuoteMap) (c : FindCriteria) : List StoredQuote :=
  (m.filter (fun p => quoteMatches c p.2)).map (·.2)

/-- Normalisation mapping an empty-string criterion to an absent one. -/
def blankToNone : Option String → Option String
  | none => none
  | some s => if s = "" then none else some s

theorem quoteMatches_blankToNone (c : FindCriteria) (q : StoredQuote) :
    quoteMatches
        { bucket := blankToNone c.bucket, solver := blankToNone c.solver,
          sourceChain := blankToNone c.sourceChain, destChain := blankToNone c.destChain,
          status := c.status } q
      = quoteMatches c q := by
  obtain ⟨b, s, sc, dc, st⟩ := c
  simp only [quoteMatches]
  rcases b with _ | b <;> rcases s with _ | s <;> rcases sc with _ | sc <;>
    rcases dc with _ | dc <;>
    simp only [blankToNone] <;>
    (try split) <;> (try split) <;> (try split) <;> (try split) <;>
    simp_all [strTruthy]

/-- Claim C10: in `findQuotes`, a criteria field set to the empty string is
treated as if it were not supplied — a filter is applied only when the
criterion value is truthy — so searching with the normalised criteria (empty
strings dropped) returns the same result, and in particular
`findQuotes (bucket := "")` returns every stored quote. -/
theorem findQuotes_blank_criteria_ignored (m : QuoteMap) (c : FindCriteria) :
    findQuotes m
        { bucket := blankToNone c.bucket, solver := blankToNone c.solver,
          sourceChain := blankToNone c.sourceChain, destChain := blankToNone c.destChain,
          status := c.status }
      = findQuotes m c
      ∧ findQuotes m { bucket := some "" } = m.map (·.2) := by
  constructor
  · unfold findQuotes
    congr 1
    exact List.filter_congr fun p _ => quoteMatches_blankToNone c p.2
  · unfold findQuotes
    have hall : ∀ p : String × StoredQuote,
        quoteMatches { bucket := some "" } p.2 = true := by
      intro p
      simp [quoteMatches, strTruthy]
    rw [List.filter_congr fun p _ => hall p]
    simp

/-! ### QuoteTracker.validateOrderMatchesQuote -/

/-- `percentDiff > tolerance` for one output, with
`percentDiff = |orderAmount - quoteAmount| / quoteAmount`. JS computes this
with floats, modelled here exactly over `Rat`; division by a zero quote
amount follows the IEEE behaviour of the source: a non-zero difference gives
`Infinity`, which exceeds every tolerance, while `0/0` gives `NaN`, which
exceeds none. This is also the natural reading of "the relative difference
exceeds the tolerance" when the denominator is zero. -/
def relDiffExceeds (orderAmt quoteAmt tolerance : Rat) : Bool :=
  if quoteAmt = 0 then decide (|orderAmt - quoteAmt| ≠ 0)
  else decide (|orderAmt - quoteAmt| / quoteAmt > tolerance)

/-- The `for (let i = 0; ...)` loop over outputs: return `false` at the first
index whose relative difference exceeds the tolerance, else `true`. The caller
has already checked the two lists have equal length. -/
def outputsLoop (tolerance : Rat) : List Token → List DestToken → Bool
  | o :: os, d :: ds =>
      if relDiffExceeds (o.amount : Rat) d.amount tolerance then false
      else outputsLoop tolerance os ds
  | _, _ => true

/-- `QuoteTracker.validateOrderMatchesQuote`. Returns `Except.error ()` where
the source throws: with a present, unexpired quote the source reads
`order.inputs[0].amount`, a `TypeError` when `inputs` is empty. `now` stands
for `Date.now()`. -/
def validateOrderMatchesQuote (m : QuoteMap) (now : Int) (orderRequest : OrderRequest)
    (quoteId : String) (tolerance : Rat) : Except Unit Bool :=
  match mapGet m quoteId with
  | none => Except.ok false
  | some quote =>
    if now > quote.expiresAt then Except.ok false
    else
      match orderRequest.order.inputs with
      | [] => Except.error ()
      | inputToken :: _ =>
        if inputToken.amount ≠ quote.inputAmount then Except.ok false
        else if orderRequest.order.outputs.length ≠ quote.destTokens.length then
          Except.ok false
        else Except.ok (outputsLoop tolerance orderRequest.order.outputs quote.destTokens)

/-- The validation result as claimed by the specification: the quote is
present, not past `expiresAt`, the order's first input amount equals the
quote's input amount exactly, the output count equals the quote's
`destTokens` count, and every output is positionally (index `i` against
index `i`) within tolerance of the corresponding quote output. -/
def specValidateResult (m : QuoteMap) (now : Int) (orderRequest : OrderRequest)
    (quoteId : String) (tolerance : Rat) : Bool :=
  match mapGet m quoteId, orderRequest.order.inputs.head? with
  | some q, some inputToken =>
      decide (¬ now > q.expiresAt) &&
      decide (inputToken.amount = q.inputAmount) &&
      decide (orderRequest.order.outputs.length = q.destTokens.length) &&
      (orderRequest.order.outputs.zip q.destTokens).all
        (fun p => ! relDiffExceeds (p.1.amount : Rat) p.2.amount tolerance)
  | _, _ => false

theorem outputsLoop_eq_all (tolerance : Rat) (os : List Token) (ds : List DestToken) :
    outputsLoop tolerance os ds =
      (os.zip ds).all (fun p => ! relDiffExceeds (p.1.amount : Rat) p.2.amount tolerance) := by
  induction os generalizing ds with
  | nil => simp [outputsLoop]
  | cons o os ih =>
    cases ds with
    | nil => simp [outputsLoop]
    | cons d ds =>
      by_cases h : relDiffExceeds (o.amount : Rat) d.amount tolerance <;>
        simp [outputsLoop, h, ih]

/-- Claim C2 (amended): provided the order has at least one input,
`validateOrderMatchesQuote` returns, without raising, `false` exactly when the
quote is absent, or `now` is past its `expiresAt`, or the first input amount
differs from the quote's input amount, or the output count differs from the
quote's `destTokens` count, or some output's relative difference from the
positionally corresponding quote output exceeds the tolerance — and `true`
otherwise. Outputs are compared positionally, never matched by token address.
(With no inputs and a present, unexpired quote the source throws instead; see
the counterexample.) -/
theorem validateOrderMatchesQuote_spec (m : QuoteMap) (now : Int)
    (orderRequest : OrderRequest) (quoteId : String) (tolerance : Rat)
    (h : orderRequest.order.inputs ≠ []) :
    validateOrderMatchesQuote m now orderRequest quoteId tolerance =
      Except.ok (specValidateResult m now orderRequest quoteId tolerance) := by
  unfold validateOrderMatchesQuote specValidateResult
  cases hq : mapGet m quoteId with
  | none => rfl
  | some quote =>
    cases hin : orderRequest.order.inputs with
    | nil => exact absurd hin h
    | cons inputToken rest =>
      simp only [hin, List.head?]
      by_cases hexp : now > quote.expiresAt
      · simp [hexp]
      · by_cases hamt : inputToken.amount = quote.inputAmount
        · by_cases hlen : orderRequest.order.outputs.length = quote.destTokens.length <;>
            simp [hexp, hamt, hlen, outputsLoop_eq_all]
        · simp [hexp, hamt]

/-- A stored quote used by the C2 theorems: unexpired, input amount 1000000,
one output of 990000. -/
def qC2 : StoredQuote :=
  { quoteId := "q2", bucket := "b2", solver := "0xsolver", sourceChain := "ethereum",
    destChain := "arbitrum", sourceToken := "0xsrc",
    destTokens := [{ token := "0xdst", amount := 990000 }],
    inputAmount := 1000000, conversionRate := 99/100, gasFeeUsd := 5/2,
    timestamp := 0, expiresAt := 600000, status := QuoteStatus.pending }

/-- An order request matching `qC2`: first input amount 1000000, single
output amount 990500 (within 0.1% of 990000). -/
def reqC2 : OrderRequest :=
  { deadline := 3600, nonce := 1,
    order :=
      { user := "0xuser", recipient := "0xrcpt", filler := "0xfill",
        inputs := [{ tokenType := TokenType.FUNGIBLE_TOKEN, tokenAddress := "0xa",
                     tokenId := 0, amount := 1000000 }],
        outputs := [{ tokenType := TokenType.FUNGIBLE_TOKEN, tokenAddress := "0xb",
                      tokenId := 0, amount := 990500 }],
        sourceChainId := 1, destinationChainId := 42161, sponsored := false,
        primaryFillerDeadline := 1800, deadline := 3600,
        callRecipient := "0xcall", callData := "0x", callValue := 0 } }

/-- `reqC2` with its inputs emptied, keeping everything else. -/
def reqC2NoInputs : OrderRequest :=
  { reqC2 with order := { reqC2.order with inputs := [] } }

/-- Counterexample to claim C2 as stated: with a present, unexpired quote and
an order whose `inputs` array is empty, the source raises a `TypeError`
(reading `inputs[0].amount` of `undefined`) instead of returning a boolean. -/
theorem validateOrderMatchesQuote_raises_on_empty_inputs :
    validateOrderMatchesQuote [("q2", qC2)] 0 reqC2NoInputs "q2" (1/1000) =
      Except.error () := by rfl

/-- Witness for the amended claim C2 at a concrete store and order. -/
theorem validateOrderMatchesQuote_spec_witness :
    validateOrderMatchesQuote [("q2", qC2)] 0 reqC2 "q2" (1/1000) =
      Except.ok (specValidateResult [("q2", qC2)] 0 reqC2 "q2" (1/1000)) :=
  validateOrderMatchesQuote_spec [("q2", qC2)] 0 reqC2 "q2" (1/1000) (by decide)

/-! ### iLayerContractHelper address padding (src/src/modules/evm.ts) -/

/-- `String.prototype.replace('0x', '')`: delete the first occurrence of the
two-character sequence `0x`. -/
def removeFirst0x : List Char → List Char
  | '0' :: 'x' :: rest => rest
  | c :: rest => c :: removeFirst0x rest
  | [] => []

/-- viem's `pad(hex, { size })` (left padding): strip the first `0x`, fail if
the remaining hex is longer than `2 * size` characters, else left-pad with
`'0'` to `2 * size` characters and restore the `0x` prefix. -/
def padHex (hex' : String) (size : Nat) : Except Unit String :=
  let hex := String.mk (removeFirst0x hex'.data)
  if hex.length > size * 2 then Except.error ()
  else Except.ok ("0x" ++ String.mk (List.replicate (size * 2 - hex.length) '0') ++ hex)

/-- `iLayerContractHelper.formatAddressToBytes32`: `pad(addr, { size: 32 })`. -/
def formatAddressToBytes32 (addr : String) : Except Unit String :=
  padHex addr 32

/-- `iLayerContractHelper.formatBytes32ToAddress`: `paddedAddr.slice(26)`. -/
def formatBytes32ToAddress (paddedAddr : String) : String :=
  paddedAddr.drop 26

set_option maxRecDepth 4096 in
/-- Claim C1 (code bug): the round trip does NOT return the original address.
Encoding a syntactically valid native-size address (`0x` + 40 hex digits)
left-pads it to `0x` + 64 hex digits, but decoding slices off the first 26
characters — the `0x` prefix plus only 24 padding digits — leaving the 40
address digits WITHOUT the `0x` prefix. Evaluated at a concrete valid
address: the round trip returns the address stripped of `0x`, which differs
from the original (and contradicts the function's own declared return type
of a `0x`-prefixed string). -/
theorem formatBytes32ToAddress_roundTrip_drops_hex_prefix :
    (formatAddressToBytes32 "0x1234567890abcdef1234567890abcdef12345678").map
        formatBytes32ToAddress
      = Except.ok "1234567890abcdef1234567890abcdef12345678"
    ∧ "1234567890abcdef1234567890abcdef12345678"
        ≠ "0x1234567890abcdef1234567890abcdef12345678" := by
  constructor
  · rfl
  · decide

/-! ### iLayerContractHelper.computeOrderNativeValue -/

/-- `iLayerContractHelper.computeOrderNativeValue`. `bridgingFee` is an
optional bigint; JS truthiness makes both `undefined` and `0n` falsy. Throws
(`Except.error`) when a truthy fee is given for a same-chain order or when no
truthy fee is given for a cross-chain order; otherwise sums the amounts of
the NATIVE-type inputs and adds the fee when truthy. -/
def computeOrderNativeValue (order : Order) (bridgingFee : Option Int) : Except Unit Int :=
  let feeTruthy : Bool :=
    match bridgingFee with
    | some f => decide (f ≠ 0)
    | none => false
  if feeTruthy ∧ order.sourceChainId = order.destinationChainId then
    Except.error ()
  else if ¬ feeTruthy = true ∧ order.sourceChainId ≠ order.destinationChainId then
    Except.error ()
  else
    let nativeValue :=
      (order.inputs.filter (fun t => t.tokenType = TokenType.NATIVE)).foldl
        (fun total t => total + t.amount) 0
    if feeTruthy then Except.ok (nativeValue + bridgingFee.getD 0)
    else Except.ok nativeValue

/-- Claim C9: `computeOrderNativeValue` throws when a non-zero bridging fee is
supplied and the chain ids are equal, throws when the chain ids differ and the
fee is absent or zero (zero is treated as absent), and otherwise returns the
sum of the amounts of the inputs whose `tokenType` is `NATIVE`, plus the
bridging fee when one was supplied. -/
theorem computeOrderNativeValue_spec (order : Order) (bridgingFee : Option Int) :
    computeOrderNativeValue order bridgingFee =
      if (bridgingFee.getD 0 ≠ 0 ∧ order.sourceChainId = order.destinationChainId)
          ∨ (bridgingFee.getD 0 = 0 ∧ order.sourceChainId ≠ order.destinationChainId) then
        Except.error ()
      else
        Except.ok
          ((order.inputs.map
              (fun t => if t.tokenType = TokenType.NATIVE then t.amount else 0)).sum
            + bridgingFee.getD 0) := by
  have hfold : ∀ (l' : List Token) (a : Int),
      l'.foldl (fun total t => total + t.amount) a = a + (l'.map Token.amount).sum := by
    intro l'
    induction l' with
    | nil => intro a; simp
    | cons hd tl ih =>
      intro a
      simp [List.foldl_cons, ih, add_assoc]
  have hmap : ∀ l : List Token,
      ((l.filter (fun t => t.tokenType = TokenType.NATIVE)).map Token.amount).sum
        = (l.map (fun t => if t.tokenType = TokenType.NATIVE then t.amount else 0)).sum := by
    intro l
    induction l with
    | nil => simp
    | cons hd tl ih =>
      by_cases h : hd.tokenType = TokenType.NATIVE <;>
        simp [List.filter_cons, h, ih]
  have hsum : ∀ l : List Token,
      (l.filter (fun t => t.tokenType = TokenType.NATIVE)).foldl
          (fun total t => total + t.amount) 0
        = (l.map (fun t => if t.tokenType = TokenType.NATIVE then t.amount else 0)).sum := by
    intro l
    rw [hfold, hmap, zero_add]
  cases bridgingFee with
  | none =>
    by_cases hc : order.sourceChainId = order.destinationChainId <;>
      simp [computeOrderNativeValue, hc, hsum]
  | some f =>
    by_cases hf : f = 0 <;> by_cases hc : order.sourceChainId = order.destinationChainId <;>
      simp [computeOrderNativeValue, hf, hc, hsum]

/-! ### iLayerSigningHelper (signing module)

The signing helper builds byte sequences with viem's `encodePacked`,
`concat` and `keccak256` and hashes them. The keccak function itself is an
external cryptographic primitive; every definition below is parametrised by
an arbitrary `keccak : Bytes → Bytes`, and the claims proved about them hold
for every choice of it. Byte sequences are lists of naturals below 256. -/

/-- A byte sequence. -/
abbrev Bytes := List Nat

/-- UTF-8 bytes of an ASCII string (`encodePacked(["string"], [s])`); the
schema strings used by the source are all ASCII. -/
def strBytes (s : String) : Bytes := s.data.map Char.toNat

/-- Big-endian byte encoding of a natural number in exactly `w` bytes. -/
def beBytes (w : Nat) (n : Nat) : Bytes :=
  match w with
  | 0 => []
  | w + 1 => beBytes w (n / 256) ++ [n % 256]

/-- viem's `encodePacked` for `uintN`: throws (`IntegerOutOfRangeError`) on a
negative value or one at or above `2 ^ bits`, else the big-endian fixed-width
encoding. -/
def encodeUint (bits : Nat) (n : Int) : Except Unit Bytes :=
  if 0 ≤ n ∧ n < (2 : Int) ^ bits then Except.ok (beBytes (bits / 8) n.toNat)
  else Except.error ()

/-- viem's `encodePacked` for `bool`: a single `0` or `1` byte. -/
def encodeBool (b : Bool) : Bytes := [if b then 1 else 0]

/-- Value of one hex digit, or an error for any other character. -/
def hexDigit (c : Char) : Except Unit Nat :=
  if '0' ≤ c ∧ c ≤ '9' then Except.ok (c.toNat - '0'.toNat)
  else if 'a' ≤ c ∧ c ≤ 'f' then Except.ok (c.toNat - 'a'.toNat + 10)
  else if 'A' ≤ c ∧ c ≤ 'F' then Except.ok (c.toNat - 'A'.toNat + 10)
  else Except.error ()

/-- Decode pairs of hex digits into bytes; odd length or a non-hex digit is
an error. -/
def hexPairsToBytes : List Char → Except Unit Bytes
  | [] => Except.ok []
  | c1 :: c2 :: rest => do
    let hi ← hexDigit c1
    let lo ← hexDigit c2
    let tail ← hexPairsToBytes rest
    Except.ok ((hi * 16 + lo) :: tail)
  | [_] => Except.error ()

/-- viem's hex-string-to-bytes conversion: requires a `0x` prefix followed by
an even number of hex digits. -/
def hexToBytes (s : String) : Except Unit Bytes :=
  match s.data with
  | '0' :: 'x' :: rest => hexPairsToBytes rest
  | _ => Except.error ()

/-- viem's `encodePacked` for `bytes32`: the value must be a `0x`-prefixed
hex string of exactly 32 bytes (`BytesSizeMismatchError` otherwise). -/
def encodeBytes32 (s : String) : Except Unit Bytes := do
  let b ← hexToBytes s
  if b.length = 32 then Except.ok b else Except.error ()

/-- viem's `encodePacked` for `address`: the value must be a `0x`-prefixed
hex string of exactly 20 bytes (`InvalidAddressError` otherwise; the
checksum validation viem also performs on mixed-case addresses is not
modelled). -/
def encodeAddress (s : String) : Except Unit Bytes := do
  let b ← hexToBytes s
  if b.length = 20 then Except.ok b else Except.error ()

/-- The `Token(...)` schema string hashed into `TOKEN_TYPEHASH`. -/
def tokenSchema : String :=
  "Token(uint8 tokenType,bytes32 tokenAddress,uint256 tokenId,uint256 amount)"

/-- The `Order(...)Token(...)` schema string hashed into `ORDER_TYPEHASH`. -/
def orderSchema : String :=
  "Order(bytes32 user,bytes32 filler,bytes32 recipient,bytes32 callRecipient,uint256 callValue,bytes callData,bool sponsored,uint256 primaryFillerDeadline,uint256 deadline,uint256 sourceChainId,uint256 destinationChainId,Token[] inputs,Token[] outputs)Token(uint8 tokenType,bytes32 tokenAddress,uint256 tokenId,uint256 amount)"

/-- The `OrderRequest(...)Order(...)Token(...)` schema string hashed into
`ORDER_REQUEST_TYPEHASH`. -/
def orderRequestSchema : String :=
  "OrderRequest(uint256 nonce,uint256 deadline,Order order)Order(bytes32 user,bytes32 filler,bytes32 recipient,bytes32 callRecipient,uint256 callValue,bytes callData,bool sponsored,uint256 primaryFillerDeadline,uint256 deadline,uint256 sourceChainId,uint256 destinationChainId,Token[] inputs,Token[] outputs)Token(uint8 tokenType,bytes32 tokenAddress,uint256 tokenId,uint256 amount)"

/-- `hashToken` inside `iLayerSigningHelper.hashOrderRequest`:
`keccak256(TOKEN_TYPEHASH ‖ uint8 tokenType ‖ bytes32 tokenAddress ‖
uint256 tokenId ‖ uint256 amount)`. -/
def hashToken (keccak : Bytes → Bytes) (t : Token) : Except Unit Bytes := do
  let tt ← encodeUint 8 (t.tokenType.toCode : Int)
  let ta ← encodeBytes32 t.tokenAddress
  let ti ← encodeUint 256 t.tokenId
  let am ← encodeUint 256 t.amount
  Except.ok (keccak (keccak (strBytes tokenSchema) ++ tt ++ ta ++ ti ++ am))

/-- `orderRequest.order.inputs.map(hashToken)` followed by `concat`: the
concatenation of the individual token hashes. -/
def hashTokenList (keccak : Bytes → Bytes) : List Token → Except Unit Bytes
  | [] => Except.ok []
  | t :: ts => do
    let h ← hashToken keccak t
    let rest ← hashTokenList keccak ts
    Except.ok (h ++ rest)

/-- `iLayerSigningHelper.hashOrderRequest`: the EIP-712 struct hash of an
`OrderRequest` — `keccak256(ORDER_REQUEST_TYPEHASH ‖ uint256 nonce ‖
uint256 deadline ‖ orderHash)` where `orderHash` hashes the order fields and
the keccak hashes of the concatenated input and output token hashes. -/
def hashOrderRequest (keccak : Bytes → Bytes) (req : OrderRequest) : Except Unit Bytes := do
  let o := req.order
  let inputsConcat ← hashTokenList keccak o.inputs
  let outputsConcat ← hashTokenList keccak o.outputs
  let inputsHash := keccak inputsConcat
  let outputsHash := keccak outputsConcat
  let userB ← encodeBytes32 o.user
  let fillerB ← encodeBytes32 o.filler
  let recipientB ← encodeBytes32 o.recipient
  let callRecipientB ← encodeBytes32 o.callRecipient
  let callValueB ← encodeUint 256 o.callValue
  let callDataB ← hexToBytes o.callData
  let pfdB ← encodeUint 256 o.primaryFillerDeadline
  let deadlineB ← encodeUint 256 o.deadline
  let srcB ← encodeUint 256 o.sourceChainId
  let dstB ← encodeUint 256 o.destinationChainId
  let orderHash := keccak (keccak (strBytes orderSchema) ++ userB ++ fillerB ++ recipientB
    ++ callRecipientB ++ callValueB ++ keccak callDataB ++ encodeBool o.sponsored
    ++ pfdB ++ deadlineB ++ srcB ++ dstB ++ inputsHash ++ outputsHash)
  let nonceB ← encodeUint 256 req.nonce
  let reqDeadlineB ← encodeUint 256 req.deadline
  Except.ok (keccak (keccak (strBytes orderRequestSchema) ++ nonceB ++ reqDeadlineB ++ orderHash))

/-- `iLayerSigningHelper.getDomainSeparator`:
`keccak256(DOMAIN_TYPEHASH ‖ keccak256("OrderHub") ‖ keccak256("1") ‖
uint256 chainId ‖ address orderHubAddress)`. -/
def getDomainSeparator (keccak : Bytes → Bytes) (orderHubAddress : String)
    (chainId : Int) : Except Unit Bytes := do
  let domainTypehash := keccak (strBytes
    "EIP712Domain(string name,string version,uint256 chainId,address verifyingContract)")
  let nameHash := keccak (strBytes "OrderHub")
  let versionHash := keccak (strBytes "1")
  let cid ← encodeUint 256 chainId
  let addr ← encodeAddress orderHubAddress
  Except.ok (keccak (domainTypehash ++ nameHash ++ versionHash ++ cid ++ addr))

/-- The EIP-712 digest both `signOrderRequest` and `verifySignature` compute:
`keccak256(0x1901 ‖ domainSeparator ‖ requestHash)`. -/
def computeDigest (keccak : Bytes → Bytes) (req : OrderRequest) (chainId : Int)
    (orderHubAddress : String) : Except Unit Bytes := do
  let ds ← getDomainSeparator keccak orderHubAddress chainId
  let rh ← hashOrderRequest keccak req
  Except.ok (keccak ([0x19, 0x01] ++ ds ++ rh))

set_option linter.unusedVariables false in
/-- `iLayerSigningHelper.verifySignature`: inside a catch-all `try`, compute
the digest, then check only that the signature is a `0x`-prefixed string of
exactly 132 characters; any thrown error becomes `false`. `expectedSigner` is
accepted but never used. -/
def verifySignature (keccak : Bytes → Bytes) (req : OrderRequest) (signature : String)
    (expectedSigner : String) (chainId : Int) (orderHubAddress : String) : Bool :=
  match computeDigest keccak req chainId orderHubAddress with
  | Except.error _ => false
  | Except.ok _digest =>
    if ¬ (signature.startsWith "0x") ∨ signature.length ≠ 132 then false
    else true

/-- `Except.isOk` specialised to the error type used here. -/
def exceptOk {α : Type} : Except Unit α → Bool
  | Except.ok _ => true
  | Except.error _ => false

/-- Claim C5: `verifySignature` returns a boolean and never raises; it
returns `false` when the signature is not a `0x`-prefixed string of exactly
132 characters, `false` when any internal step throws (the catch-all
fallback), and `true` otherwise — the result is purely structural validation
of the signature encoding: in particular the right-hand side does not depend
on `expectedSigner` or on the digest's value. -/
theorem verifySignature_structural (keccak : Bytes → Bytes) (req : OrderRequest)
    (signature : String) (expectedSigner : String) (chainId : Int)
    (orderHubAddress : String) :
    verifySignature keccak req signature expectedSigner chainId orderHubAddress =
      (exceptOk (computeDigest keccak req chainId orderHubAddress)
        && (signature.startsWith "0x" && decide (signature.length = 132))) := by
  unfold verifySignature
  cases hd : computeDigest keccak req chainId orderHubAddress with
  | error e => simp [exceptOk]
  | ok d =>
    by_cases h1 : signature.startsWith "0x" <;>
      by_cases h2 : signature.length = 132 <;>
        simp [exceptOk, h1, h2]

/-- `iLayerSigningHelper.generateOrderId`:
`keccak256(hashOrderRequest(orderRequest) ‖ uint256 nonce)`. -/
def generateOrderId (keccak : Bytes → Bytes) (req : OrderRequest) : Except Unit Bytes :=
  match hashOrderRequest keccak req with
  | Except.error e => Except.error e
  | Except.ok orderHash =>
    match encodeUint 256 req.nonce with
    | Except.error e => Except.error e
    | Except.ok nonceB => Except.ok (keccak (orderHash ++ nonceB))

/-- Claim C6: for every order request whose struct hash is defined (and whose
nonce is in uint256 range, as the data model requires), the generated order
id equals the hash of the concatenation of the typed-data struct hash of the
request and the nonce encoded as a 256-bit big-endian unsigned integer. The
function is deterministic — it is a pure function of `req`, so equal requests
yield equal identifiers. -/
theorem generateOrderId_spec (keccak : Bytes → Bytes) (req : OrderRequest) (rh : Bytes)
    (h1 : hashOrderRequest keccak req = Except.ok rh)
    (h2 : 0 ≤ req.nonce ∧ req.nonce < (2 : Int) ^ 256) :
    generateOrderId keccak req = Except.ok (keccak (rh ++ beBytes 32 req.nonce.toNat)) := by
  unfold generateOrderId
  rw [h1, encodeUint, if_pos h2]

/-- A minimal well-formed order request (32-byte zero addresses, empty token
lists, empty call data) used to witness claim C6. -/
def reqC6 : OrderRequest :=
  { deadline := 0, nonce := 0,
    order :=
      { user := "0x0000000000000000000000000000000000000000000000000000000000000000",
        recipient := "0x0000000000000000000000000000000000000000000000000000000000000000",
        filler := "0x0000000000000000000000000000000000000000000000000000000000000000",
        inputs := [], outputs := [],
        sourceChainId := 1, destinationChainId := 42161, sponsored := false,
        primaryFillerDeadline := 0, deadline := 0,
        callRecipient := "0x0000000000000000000000000000000000000000000000000000000000000000",
        callData := "0x", callValue := 0 } }

set_option maxRecDepth 100000 in
/-- Witness for claim C6: at the constant-empty hash function and `reqC6`,
the struct hash evaluates to `Except.ok []` and the order id is the hash of
its concatenation with the 32-byte nonce encoding. -/
theorem generateOrderId_spec_witness :
    generateOrderId (fun _ => ([] : Bytes)) reqC6 =
      Except.ok ((fun _ => ([] : Bytes)) (([] : Bytes) ++ beBytes 32 (Int.toNat 0))) :=
  generateOrderId_spec (fun _ => ([] : Bytes)) reqC6 [] (by rfl) (by constructor <;> decide)

/-! ### iLayerRfqHelper channel bookkeeping (src/src/modules/rfq.ts)

The pub/sub transport is external; what is modelled is the helper's own
bookkeeping and the transport calls it issues, as a state:
`transportSubs` — channel names with an active transport-level subscription
(`pusher.subscribe` adds one, `pusher.unsubscribe` removes one);
`connected` — cleared by `pusher.disconnect()`;
`channels` / `pending` — the key sets of the `channels` and
`pendingChannels` maps. Promise continuations of an in-flight subscription
are separate transitions (`settleSuccess` / `settleFailure`), per the
single-logical-thread concurrency model. -/

structure RfqState where
  transportSubs : List String
  connected : Bool
  channels : List String
  pending : List String
deriving DecidableEq, Repr

/-- A freshly constructed helper: connected, no subscriptions, empty maps. -/
def rfqInit : RfqState :=
  { transportSubs := [], connected := true, channels := [], pending := [] }

/-- The synchronous part of `getChannel(name)`: return the memoized channel
or the in-flight promise if one exists; otherwise call
`this.pusher.subscribe(name)` (starting a transport subscription) and record
the attempt in `pendingChannels`. -/
def getChannelStart (s : RfqState) (name : String) : RfqState :=
  if name ∈ s.channels ∨ name ∈ s.pending then s
  else
    { s with
      transportSubs :=
        if name ∈ s.transportSubs then s.transportSubs else s.transportSubs ++ [name],
      pending := s.pending ++ [name] }

/-- The `.then` continuation of `getChannel`'s subscription promise: on
confirmation, `channels.set(name, channel)` and `pendingChannels.delete(name)`. -/
def settleSuccess (s : RfqState) (name : String) : RfqState :=
  { s with
    channels := if name ∈ s.channels then s.channels else s.channels ++ [name],
    pending := s.pending.filter (fun m => decide (m ≠ name)) }

/-- The `.catch` continuation of `getChannel`'s subscription promise: on
failure, `pendingChannels.delete(name)` and `this.pusher.unsubscribe(name)`. -/
def settleFailure (s : RfqState) (name : String) : RfqState :=
  { s with
    pending := s.pending.filter (fun m => decide (m ≠ name)),
    transportSubs := s.transportSubs.filter (fun m => decide (m ≠ name)) }

/-- `iLayerRfqHelper.disconnect`: `pusher.unsubscribe(name)` for every key of
the `channels` map only, then clear both maps and `pusher.disconnect()`. -/
def disconnect (s : RfqState) : RfqState :=
  { transportSubs := s.transportSubs.filter (fun n => decide (n ∉ s.channels)),
    connected := false, channels := [], pending := [] }

/-- Counterexample to claim C8 as stated: subscribe to channel `"a"` and call
`disconnect` while the subscription attempt is still in flight. The attempt
did subscribe at the transport (`transportSubs = ["a"]`, `pending = ["a"]`),
but `disconnect` iterates only the established-channel map, so it never
unsubscribes `"a"`: after `disconnect` the transport subscription is still
registered, contradicting "unsubscribes every channel this helper instance
ever subscribed to (including channels whose subscription attempt is still
in flight)". -/
theorem disconnect_leaves_inflight_subscription :
    (getChannelStart rfqInit "a").transportSubs = ["a"]
      ∧ (getChannelStart rfqInit "a").pending = ["a"]
      ∧ (disconnect (getChannelStart rfqInit "a")).transportSubs = ["a"] := by
  refine ⟨rfl, rfl, rfl⟩

/-- Claim C8 (amended): `disconnect()` unsubscribes exactly the channels
recorded in the established-channel map (channels whose subscription attempt
is still in flight are not individually unsubscribed — only the transport
teardown affects them), clears both the established-channel map and the
pending-subscription map, tears down the underlying transport connection,
and is idempotent: a second `disconnect` changes nothing further. -/
theorem disconnect_spec (s : RfqState) :
    (disconnect s).channels = []
      ∧ (disconnect s).pending = []
      ∧ (disconnect s).connected = false
      ∧ (disconnect s).transportSubs
          = s.transportSubs.filter (fun n => decide (n ∉ s.channels))
      ∧ disconnect (disconnect s) = disconnect s := by
  refine ⟨rfl, rfl, rfl, rfl, ?_⟩
  simp [disconnect]

end ILayer
